import Mathlib

set_option maxRecDepth 8000

/-!
Verification of the `agent-exec` CLI (src/agent-exec.ts).

This file shallowly embeds the pure argument-handling, binary-classification,
change-collection and configuration-resolution logic of `agent-exec.ts` and
proves or refutes the frozen claims about it.

Modelling conventions:
* JavaScript strings are Lean `String`s; byte buffers are `List Nat`
  (each element one byte value).
* `undefined` values are `Option.none`; JavaScript truthiness of an optional
  string (`undefined` and `""` are falsy) is `jsTruthy`.
* JavaScript numbers are modelled as `Rat` where needed; NaN and infinite
  results are `Option.none`.
* Functions that `throw` are embedded with `Except String`.
-/

namespace AgentExec

/-- Agent identifiers: `type AgentName = "codex" | "claude" | "cursor"`. -/
inductive AgentName where
  | codex
  | claude
  | cursor
deriving DecidableEq

/-- Output formats: `type OutputFormat = "json" | "text"`. -/
inductive OutputFormat where
  | json
  | text
deriving DecidableEq

/-- Input-delivery modes: `type InputMode = "auto" | "arg" | "stdin" | "none"`. -/
inductive InputMode where
  | auto
  | arg
  | stdin
  | none
deriving DecidableEq

instance {ε α : Type} [DecidableEq ε] [DecidableEq α] : DecidableEq (Except ε α) := fun a b =>
  match a, b with
  | .ok x, .ok y => decidable_of_iff (x = y) (by simp)
  | .ok _, .error _ => .isFalse (by simp)
  | .error _, .ok _ => .isFalse (by simp)
  | .error x, .error y => decidable_of_iff (x = y) (by simp)

/-- JavaScript truthiness of a `string | undefined` value:
`undefined` and the empty string are falsy. -/
def jsTruthy : Option String → Bool
  | Option.none => false
  | Option.some s => s ≠ ""

/-! ### String primitives

The JavaScript string operations the program uses (`includes`, `replaceAll`,
`split`, `trim`, `startsWith`, `endsWith`, `slice`) are implemented here by
structural recursion over the character list of a `String`, so that every
definition evaluates on concrete inputs. -/

/-- ASCII whitespace trimmed by `String.prototype.trim` (space, tab, LF, CR,
vertical tab, form feed; the Unicode space characters JavaScript also trims
are not modelled). -/
def jsIsWhitespace (c : Char) : Bool :=
  c = ' ' || c = '\t' || c = '\n' || c = '\r' || c = '\x0b' || c = '\x0c'

/-- Trim leading and trailing whitespace from a character list. -/
def trimChars (l : List Char) : List Char :=
  ((l.dropWhile jsIsWhitespace).reverse.dropWhile jsIsWhitespace).reverse

/-- `s.trim()`. -/
def jsTrim (s : String) : String :=
  ⟨trimChars s.data⟩

/-- Split a character list at every non-overlapping occurrence of the
non-empty pattern `pat`, scanning left to right (the semantics of
`String.prototype.split` with a string separator).  `fuel` bounds the
recursion; it is initialised to more than the list length, which suffices
because every step consumes at least one character. -/
def splitOnListAux (pat : List Char) : Nat → List Char → List Char → List (List Char)
  | 0, l, acc => [acc.reverse ++ l]
  | _ + 1, [], acc => [acc.reverse]
  | fuel + 1, c :: rest, acc =>
    if pat.isPrefixOf (c :: rest) then
      acc.reverse :: splitOnListAux pat fuel ((c :: rest).drop pat.length) []
    else
      splitOnListAux pat fuel rest (c :: acc)

/-- `s.split(pat)` for a non-empty string pattern. -/
def jsSplit (s pat : String) : List String :=
  (splitOnListAux pat.data (s.data.length + 1) s.data []).map String.mk

/-- `s.startsWith(p)`. -/
def startsWithStr (s p : String) : Bool :=
  p.data.isPrefixOf s.data

/-- `s.endsWith(p)` for a single character. -/
def endsWithChar (s : String) (c : Char) : Bool :=
  s.data.getLast? = Option.some c

/-- `s.slice(a)`,`s.slice(a, b)` for non-negative in-range-or-clamped indices. -/
def sliceFrom (s : String) (a : Nat) : String :=
  ⟨s.data.drop a⟩

/-- `s.slice(0, b)`. -/
def sliceTo (s : String) (b : Nat) : String :=
  ⟨s.data.take b⟩

/-- A byte is "printable" for the binary heuristic:
`byte === 9 || byte === 10 || byte === 13 || (byte >= 32 && byte <= 126)`. -/
def isPrintableByte (b : Nat) : Bool :=
  b = 9 || b = 10 || b = 13 || (32 ≤ b && b ≤ 126)

/-- The loop body of `isProbablyBinary`: walk the sample, return `true` at the
first null byte, count non-printable bytes, and at the end compare the count
against 30% of the total sample length.  The source compares with IEEE doubles
(`nonPrintable / sample.length > 0.3`); for `nonPrintable ≤ total ≤ 8000` that
comparison coincides exactly with the rational comparison
`10 * nonPrintable > 3 * total`, which is how it is written here. -/
def isProbablyBinaryLoop (sample : List Nat) (nonPrintable : Nat) (total : Nat) : Bool :=
  match sample with
  | [] => decide (0 < total) && decide (3 * total < 10 * nonPrintable)
  | b :: rest =>
    if b = 0 then true
    else isProbablyBinaryLoop rest (if isPrintableByte b then nonPrintable else nonPrintable + 1) total

/-- `isProbablyBinary(buffer)`: inspect the first 8000 bytes
(`buffer.subarray(0, 8000)`), short-circuit to `true` on a null byte, otherwise
classify as binary when the non-printable ratio exceeds 30% of a non-empty
sample. -/
def isProbablyBinary (buffer : List Nat) : Bool :=
  let sample := buffer.take 8000
  isProbablyBinaryLoop sample 0 sample.length

/-- The number of non-printable bytes in a sample. -/
def nonPrintableCount (sample : List Nat) : Nat :=
  (sample.filter (fun b => !isPrintableByte b)).length

/-! ### JavaScript `Number()` model

`normalizeMaxBytes` calls `Number(value)` and keeps the result only when
`Number.isFinite(parsed) && parsed > 0`.  `Number()` is modelled as an exact
rational parse of the ECMAScript string-numeric-literal grammar, with
`Option.none` standing for NaN and for the infinities.  Values beyond the
IEEE-double range round to an infinity (cutoff `2^1024 - 2^970`, the exact
round-to-nearest-even boundary) and are therefore `Option.none`; positive
values at or below `2^-1075` round to zero.  Rounding of the remaining finite
values is not modelled: it never changes the finiteness or the sign that
`normalizeMaxBytes` inspects. -/

/-- Decimal digits to a natural number. -/
def digitsToNat (cs : List Char) : Nat :=
  cs.foldl (fun n c => 10 * n + (c.toNat - 48)) 0

/-- Hexadecimal digit test. -/
def isHexDigitCh (c : Char) : Bool :=
  c.isDigit || ('a' ≤ c && c ≤ 'f') || ('A' ≤ c && c ≤ 'F')

/-- Hexadecimal digit value. -/
def hexDigitVal (c : Char) : Nat :=
  if c.isDigit then c.toNat - 48
  else if 'a' ≤ c && c ≤ 'f' then c.toNat - 87
  else c.toNat - 55

/-- Octal digit test. -/
def isOctDigitCh (c : Char) : Bool :=
  '0' ≤ c && c ≤ '7'

/-- Binary digit test. -/
def isBinDigitCh (c : Char) : Bool :=
  c = '0' || c = '1'

/-- Digits in a given base to a natural number. -/
def radixToNat (base : Nat) (val : Char → Nat) (cs : List Char) : Nat :=
  cs.foldl (fun n c => base * n + val c) 0

/-- Exponent digits: non-empty all-decimal, else NaN. -/
def parseExpDigits (cs : List Char) : Option Nat :=
  if cs ≠ [] && cs.all Char.isDigit then Option.some (digitsToNat cs) else Option.none

/-- The remainder of a decimal literal after mantissa and fraction: either
empty (exponent 0) or `e`/`E` followed by an optionally signed digit string. -/
def parseExpTail : List Char → Option Int
  | [] => Option.some 0
  | c :: cs =>
    if c = 'e' || c = 'E' then
      match cs with
      | '+' :: ds => (parseExpDigits ds).map (fun n => (n : Int))
      | '-' :: ds => (parseExpDigits ds).map (fun n => -(n : Int))
      | ds => (parseExpDigits ds).map (fun n => (n : Int))
    else Option.none

/-- An unsigned ECMAScript decimal literal
(`digits [. digits] [exp]` or `. digits [exp]`) as an exact rational,
`digits * 10^exponent / 10^(fraction length)`. -/
def parseDecimal (cs : List Char) : Option Rat :=
  let ip := cs.takeWhile Char.isDigit
  let r1 := cs.dropWhile Char.isDigit
  let fr : List Char × List Char :=
    match r1 with
    | '.' :: r => (r.takeWhile Char.isDigit, r.dropWhile Char.isDigit)
    | _ => ([], r1)
  if ip = [] && fr.1 = [] then Option.none
  else
    (parseExpTail fr.2).map fun ex =>
      let d := digitsToNat (ip ++ fr.1)
      let f := fr.1.length
      if 0 ≤ ex then mkRat (Int.ofNat (d * 10 ^ ex.toNat)) (10 ^ f)
      else mkRat (Int.ofNat d) (10 ^ f * 10 ^ (-ex).toNat)

/-- Exact rationals at or beyond this magnitude round to an IEEE-double
infinity. -/
def doubleMaxCut : Rat := mkRat (Int.ofNat (2 ^ 1024 - 2 ^ 970)) 1

/-- Exact rationals at or below this magnitude round to an IEEE-double zero. -/
def doubleUnderCut : Rat := mkRat 1 (2 ^ 1075)

/-- Collapse an exact parsed rational to its double classification: infinite
results become `Option.none`, results rounding to ±0 become `0`. -/
def finAdjust (r : Rat) : Option Rat :=
  if doubleMaxCut ≤ r ∨ r ≤ -doubleMaxCut then Option.none
  else if r ≤ doubleUnderCut && -doubleUnderCut ≤ r then Option.some 0
  else Option.some r

/-- `Number(s)` for a string argument. -/
def jsNumberString (s : String) : Option Rat :=
  let t := trimChars s.data
  if t = [] then Option.some 0
  else
    match t with
    | '0' :: 'x' :: ds | '0' :: 'X' :: ds =>
      if ds ≠ [] && ds.all isHexDigitCh then
        finAdjust (mkRat (Int.ofNat (radixToNat 16 hexDigitVal ds)) 1)
      else Option.none
    | '0' :: 'o' :: ds | '0' :: 'O' :: ds =>
      if ds ≠ [] && ds.all isOctDigitCh then
        finAdjust (mkRat (Int.ofNat (radixToNat 8 (fun c => c.toNat - 48) ds)) 1)
      else Option.none
    | '0' :: 'b' :: ds | '0' :: 'B' :: ds =>
      if ds ≠ [] && ds.all isBinDigitCh then
        finAdjust (mkRat (Int.ofNat (radixToNat 2 (fun c => c.toNat - 48) ds)) 1)
      else Option.none
    | t' =>
      let sgnBody : Bool × List Char :=
        match t' with
        | '+' :: r => (false, r)
        | '-' :: r => (true, r)
        | r => (false, r)
      if sgnBody.2 = "Infinity".data then Option.none
      else (parseDecimal sgnBody.2).bind fun m => finAdjust (if sgnBody.1 then -m else m)

/-- `Number(value)` where `value : string | undefined`; `Number(undefined)`
is NaN. -/
def jsNumber : Option String → Option Rat
  | Option.none => Option.none
  | Option.some s => jsNumberString s

/-! ### Environment lookup and model-flag resolution -/

/-- `getEnvValue(name)`: `process.env["AGENT_EXEC_" + name] ?? process.env["AGENT_RUN_" + name]`.
The environment is modelled as a partial map from variable names to strings. -/
def getEnvValue (env : String → Option String) (name : String) : Option String :=
  match env ("AGENT_EXEC_" ++ name) with
  | Option.some s => Option.some s
  | Option.none => env ("AGENT_RUN_" ++ name)

/-- JavaScript `a || b` on a `string | undefined` left operand: falls through to
`b` when `a` is `undefined` or the empty string. -/
def jsOrElse (a : Option String) (b : String) : String :=
  match a with
  | Option.some s => if s = "" then b else s
  | Option.none => b

/-- The uppercase spelling of an agent name, as `agent.toUpperCase()` yields. -/
def agentUpper : AgentName → String
  | .codex => "CODEX"
  | .claude => "CLAUDE"
  | .cursor => "CURSOR"

/-- `getModelFlag(agent)`: per-agent override, then generic override, then `--model`. -/
def getModelFlag (env : String → Option String) (agent : AgentName) : String :=
  jsOrElse (getEnvValue env ("MODEL_FLAG_" ++ agentUpper agent))
    (jsOrElse (getEnvValue env "MODEL_FLAG") "--model")

/-! ### Argument interpolation and assembly (`interpolateArgs`, `hasFlag`, `runAgent`) -/

/-- The placeholder token searched for in template arguments (`"{prompt}"`). -/
def PROMPT_TOKEN : String := "\x7bprompt\x7d"

/-- `s.includes(pat)` for a non-empty pattern: the split has more than one
piece exactly when the pattern occurs. -/
def includesSub (s pat : String) : Bool :=
  (jsSplit s pat).length ≠ 1

/-- `s.replaceAll(pat, repl)` for a non-empty string pattern: non-overlapping
left-to-right replacement. -/
def replaceAllStr (s pat repl : String) : String :=
  String.intercalate repl (jsSplit s pat)

/-- `interpolateArgs(args, prompt)`: replace every occurrence of the
placeholder in every template entry, and report whether any entry contained
the placeholder.  The source sets the `used` flag inside the `map` callback;
it ends up `true` exactly when some entry contains the placeholder, which is
how it is written here. -/
def interpolateArgs (args : List String) (prompt : String) : List String × Bool :=
  (args.map fun arg =>
      if includesSub arg PROMPT_TOKEN then replaceAllStr arg PROMPT_TOKEN prompt else arg,
   args.any fun arg => includesSub arg PROMPT_TOKEN)

/-- `hasFlag(args, flag)`: some element equals `flag` or starts with `flag + "="`. -/
def hasFlag (args : List String) (flag : String) : Bool :=
  args.any fun arg => arg = flag || startsWithStr arg (flag ++ "=")

/-- The inputs of `runAgent` that determine the final argument list:
the selected agent's template arguments, the prompt, the input mode, the
passthrough arguments, the resolved model flag (`getModelFlag`), and the
optional model identifier. -/
structure RunInput where
  configArgs : List String
  prompt : String
  inputMode : InputMode
  passthrough : List String
  modelFlag : String
  modelId : Option String
deriving DecidableEq

/-- Stdin wiring selected by `runAgent` (`"inherit" | "pipe"`). -/
inductive StdinMode where
  | inherit
  | pipe
deriving DecidableEq

/-- The pure outcome of `runAgent`'s argument assembly: the final argument
list passed to `spawn`, the stdin wiring, and whether the prompt is written
to the child's stdin. -/
structure RunPlan where
  finalArgs : List String
  stdinMode : StdinMode
  sendPrompt : Bool
deriving DecidableEq

/-- `baseArgs` in `runAgent`: interpolated template arguments, then
passthrough arguments, then — only when a model id is supplied (truthy) and
the flag is not already present — the model flag/value pair. -/
def baseArgsOf (i : RunInput) : List String :=
  let base0 := (interpolateArgs i.configArgs i.prompt).1 ++ i.passthrough
  match i.modelId with
  | Option.some m =>
    if m ≠ "" && !hasFlag base0 i.modelFlag then base0 ++ [i.modelFlag, m] else base0
  | Option.none => base0

/-- The argument-assembly and prompt-delivery logic of `runAgent` (everything
up to the `spawn` call): decides the final argument list, the stdin wiring
and whether the prompt is piped to stdin. -/
def computeRunPlan (i : RunInput) : RunPlan :=
  let interpolated := interpolateArgs i.configArgs i.prompt
  let base := baseArgsOf i
  if i.prompt ≠ "" then
    match i.inputMode with
    | .arg => if interpolated.2 then ⟨base, .inherit, false⟩ else ⟨base ++ [i.prompt], .inherit, false⟩
    | .stdin => ⟨base, .pipe, true⟩
    | .auto => if interpolated.2 then ⟨base, .inherit, false⟩ else ⟨base ++ [i.prompt], .inherit, false⟩
    | .none => ⟨base, .inherit, false⟩
  else ⟨base, .inherit, false⟩

/-- What `runAgent` resolves with: `{ exitCode: code ?? 0, args: finalArgs }`,
where `code` is the (possibly absent) exit code delivered by the child's
`close` event — absent when the process terminated via a signal. -/
structure RunOutcome where
  exitCode : Int
  args : List String
deriving DecidableEq

/-- The resolution step of `runAgent`: pair the close-event code (defaulted
to `0` when absent) with the final argument list. -/
def runAgentResult (i : RunInput) (closeCode : Option Int) : RunOutcome :=
  ⟨closeCode.getD 0, (computeRunPlan i).finalArgs⟩

/-- The model flag/value pair appended by `runAgent`, when any. -/
def appendedModelPair (i : RunInput) : List String :=
  let base0 := (interpolateArgs i.configArgs i.prompt).1 ++ i.passthrough
  match i.modelId with
  | Option.some m =>
    if m ≠ "" && !hasFlag base0 i.modelFlag then [i.modelFlag, m] else []
  | Option.none => []

/-- The positionally-delivered prompt appended by `runAgent`, when any. -/
def appendedPromptArg (i : RunInput) : List String :=
  if i.prompt ≠ "" &&
      (i.inputMode = InputMode.arg || i.inputMode = InputMode.auto) &&
      !(interpolateArgs i.configArgs i.prompt).2 then
    [i.prompt]
  else []

/-! ### Configuration resolution (`normalize*`, `parseArgs`) -/

/-- `DEFAULT_FORMAT = "json"`. -/
def DEFAULT_FORMAT : OutputFormat := .json

/-- `DEFAULT_INPUT = "auto"`. -/
def DEFAULT_INPUT : InputMode := .auto

/-- `DEFAULT_MAX_BYTES = 1_000_000`. -/
def DEFAULT_MAX_BYTES : Rat := mkRat 1000000 1

/-- `normalizeMaxBytes`: keep a finite positive parsed number, else the
default. -/
def normalizeMaxBytes (value : Option String) : Rat :=
  match jsNumber value with
  | Option.some q => if 0 < q.num then q else DEFAULT_MAX_BYTES
  | Option.none => DEFAULT_MAX_BYTES

/-- `normalizeFormat`: `"json"` or `"text"`, else the default. -/
def normalizeFormat : Option String → OutputFormat
  | Option.some "json" => .json
  | Option.some "text" => .text
  | _ => DEFAULT_FORMAT

/-- `normalizeAgent`: one of the three agent names, else `null`. -/
def normalizeAgent : Option String → Option AgentName
  | Option.some "codex" => Option.some .codex
  | Option.some "claude" => Option.some .claude
  | Option.some "cursor" => Option.some .cursor
  | _ => Option.none

/-- `normalizeInput`: one of the four input modes, else the default. -/
def normalizeInput : Option String → InputMode
  | Option.some "auto" => .auto
  | Option.some "arg" => .arg
  | Option.some "stdin" => .stdin
  | Option.some "none" => .none
  | _ => DEFAULT_INPUT

/-- The resolved options record (`type Options`).  `dir` is `Option String`
because `--dir` with no following token stores `undefined`. -/
structure Options where
  agent : Option AgentName
  dir : Option String
  format : OutputFormat
  input : InputMode
  maxBytes : Rat
  includeContent : Bool
  list : Bool
  modelId : Option String
  help : Bool
deriving DecidableEq

/-- The options record `parseArgs` starts from: environment-derived defaults,
`dir` initialised to the current working directory. -/
def initialOptions (env : String → Option String) (cwd : String) : Options where
  agent := normalizeAgent (getEnvValue env "AGENT")
  dir := Option.some cwd
  format := normalizeFormat (getEnvValue env "FORMAT")
  input := normalizeInput (getEnvValue env "INPUT")
  maxBytes := normalizeMaxBytes (getEnvValue env "MAX_BYTES")
  includeContent := !jsTruthy (getEnvValue env "NO_CONTENT")
  list := false
  modelId := Option.none
  help := false

/-- The mutable state of the `parseArgs` scan loop. -/
structure ParseState where
  opts : Options
  positional : List String
  passthrough : List String
  inPassthrough : Bool
deriving DecidableEq

/-- The error thrown for an invalid `--agent` value; a missing following
token interpolates as the string `"undefined"`. -/
def invalidAgentMsg (v : Option String) : String :=
  "Invalid agent: " ++
    (match v with | Option.some s => s | Option.none => "undefined") ++
    ". Use codex, claude, or cursor."

/-- The `parseArgs` scan loop over `argv`, one branch per flag, in source
order.  Value-taking flags read `argv[i + 1]` (which may be absent) and skip
it. -/
def parseLoop (st : ParseState) (argv : List String) : Except String ParseState :=
  match argv with
  | [] => .ok st
  | arg :: rest =>
    if st.inPassthrough then
      parseLoop { st with passthrough := st.passthrough ++ [arg] } rest
    else if arg = "--" then
      parseLoop { st with inPassthrough := true } rest
    else if arg = "-h" || arg = "--help" then
      parseLoop { st with opts.help := true } rest
    else if arg = "--list" then
      parseLoop { st with opts.list := true } rest
    else if arg = "-a" || arg = "--agent" then
      match rest with
      | [] => .error (invalidAgentMsg Option.none)
      | v :: rest2 =>
        match normalizeAgent (Option.some v) with
        | Option.none => .error (invalidAgentMsg (Option.some v))
        | Option.some a => parseLoop { st with opts.agent := Option.some a } rest2
    else if arg = "-d" || arg = "--dir" then
      match rest with
      | [] => .ok { st with opts.dir := Option.none }
      | v :: rest2 => parseLoop { st with opts.dir := Option.some v } rest2
    else if arg = "-m" || arg = "--model" || arg = "--model-id" then
      match rest with
      | [] => .error "Missing value for --model."
      | v :: rest2 =>
        if v = "" then .error "Missing value for --model."
        else parseLoop { st with opts.modelId := Option.some v } rest2
    else if arg = "-f" || arg = "--format" then
      match rest with
      | [] => .ok { st with opts.format := normalizeFormat Option.none }
      | v :: rest2 => parseLoop { st with opts.format := normalizeFormat (Option.some v) } rest2
    else if arg = "--json" then
      parseLoop { st with opts.format := .json } rest
    else if arg = "--text" then
      parseLoop { st with opts.format := .text } rest
    else if arg = "--input" then
      match rest with
      | [] => .ok { st with opts.input := normalizeInput Option.none }
      | v :: rest2 => parseLoop { st with opts.input := normalizeInput (Option.some v) } rest2
    else if arg = "--arg" then
      parseLoop { st with opts.input := .arg } rest
    else if arg = "--stdin" then
      parseLoop { st with opts.input := .stdin } rest
    else if arg = "--no-input" then
      parseLoop { st with opts.input := .none } rest
    else if arg = "--max-bytes" then
      match rest with
      | [] => .ok { st with opts.maxBytes := normalizeMaxBytes Option.none }
      | v :: rest2 => parseLoop { st with opts.maxBytes := normalizeMaxBytes (Option.some v) } rest2
    else if arg = "--no-content" then
      parseLoop { st with opts.includeContent := false } rest
    else if arg = "--content" then
      parseLoop { st with opts.includeContent := true } rest
    else
      parseLoop { st with positional := st.positional ++ [arg] } rest

/-- What `parseArgs` returns: the options, the space-joined trimmed prompt,
and the passthrough arguments. -/
structure ParseResult where
  options : Options
  prompt : String
  passthrough : List String
deriving DecidableEq

/-- `parseArgs(argv)`: run the scan loop from the environment-derived initial
options and join the positional tokens into the prompt
(`positional.join(" ").trim()`). -/
def parseArgsE (env : String → Option String) (cwd : String) (argv : List String) :
    Except String ParseResult :=
  (parseLoop ⟨initialOptions env cwd, [], [], false⟩ argv).map fun st =>
    ⟨st.opts, jsTrim (String.intercalate " " st.positional), st.passthrough⟩

/-! ### Change collection (`getGitChanges`) and the structured output record -/

/-- A change record (`type Change`).  Content is a byte list (the source
stores the UTF-8 decoding of the same bytes); the `truncated` and `binary`
fields are `Option Bool` because the source leaves them `undefined` when not
set. -/
structure Change where
  path : String
  status : String
  content : Option (List Nat) := Option.none
  truncated : Option Bool := Option.none
  binary : Option Bool := Option.none
deriving DecidableEq

/-- Split the status output on `/\r?\n/` (newline, optionally preceded by a
carriage return) and drop empty lines (`filter(Boolean)`). -/
def statusLines (stdout : String) : List String :=
  ((jsSplit stdout "\n").map fun l =>
      if endsWithChar l '\r' then sliceTo l (l.data.length - 1) else l).filter
    (fun l => l ≠ "")

/-- The rename/move resolution: `file.split(" -> ").pop() || file`. -/
def resolveRenamePath (file : String) : String :=
  if includesSub file " -> " then
    let last := (jsSplit file " -> ").getLastD ""
    if last = "" then file else last
  else file

/-- Parse one porcelain status line: status = first two characters trimmed,
path = everything from index 3 trimmed, rename arrow resolved to the
destination; `Option.none` when the path resolves empty (the line is
skipped). -/
def changeOfLine (line : String) : Option (String × String) :=
  let status := jsTrim (sliceTo line 2)
  let file := resolveRenamePath (jsTrim (sliceFrom line 3))
  if file = "" then Option.none else Option.some (file, status)

/-- The content-enrichment step applied to a change record after a successful
`fs.readFile`: binary classification first, then the byte-cap truncation,
else the full content. -/
def enrichChange (c : Change) (data : List Nat) (maxBytes : Nat) : Change :=
  if isProbablyBinary data then { c with binary := Option.some true }
  else if data.length > maxBytes then
    { c with content := Option.some (data.take maxBytes), truncated := Option.some true }
  else { c with content := Option.some data }

/-- `getGitChanges(cwd, maxBytes, includeContent)`, with the external world
supplied as data: `statusExit` and `stdout` are the exit code and captured
standard output of `git status --porcelain=v1`, and `readFile` maps a
repository-relative changed path to its bytes (`Option.none` when the read
fails, e.g. for a deleted file).  The byte cap is modelled as a natural
number of bytes.  A non-zero status exit yields the empty change set. -/
def getGitChanges (statusExit : Int) (stdout : String)
    (readFile : String → Option (List Nat)) (maxBytes : Nat) (includeContent : Bool) :
    List Change :=
  if statusExit ≠ 0 then []
  else
    (statusLines stdout).filterMap fun line =>
      (changeOfLine line).map fun fs =>
        let c : Change := { path := fs.1, status := fs.2 }
        if includeContent then
          match readFile fs.1 with
          | Option.some data => enrichChange c data maxBytes
          | Option.none => c
        else c

/-- The structured record `main` prints in JSON mode. -/
structure OutputRecord where
  ok : Bool
  agent : AgentName
  model : Option String
  command : String
  args : List String
  cwd : String
  exitCode : Int
  changes : List Change
deriving DecidableEq

/-- The assembly of the structured output record in `main`:
`ok` is `runResult.exitCode === 0`. -/
def buildOutput (agent : AgentName) (model : Option String) (command : String)
    (args : List String) (cwd : String) (exitCode : Int) (changes : List Change) :
    OutputRecord :=
  ⟨exitCode = 0, agent, model, command, args, cwd, exitCode, changes⟩

/-- Spec-side description of the positional (non-flag) tokens of an
invocation: tokens before the `--` delimiter that are not recognized flags
and are not consumed as the value of a value-taking flag, in order.  The
branch structure mirrors the `parseArgs` scan. -/
def positionalTokens : List String → List String
  | [] => []
  | arg :: rest =>
    if arg = "--" then []
    else if arg = "-h" || arg = "--help" then positionalTokens rest
    else if arg = "--list" then positionalTokens rest
    else if arg = "-a" || arg = "--agent" then
      (match rest with | [] => [] | _ :: r2 => positionalTokens r2)
    else if arg = "-d" || arg = "--dir" then
      (match rest with | [] => [] | _ :: r2 => positionalTokens r2)
    else if arg = "-m" || arg = "--model" || arg = "--model-id" then
      (match rest with | [] => [] | _ :: r2 => positionalTokens r2)
    else if arg = "-f" || arg = "--format" then
      (match rest with | [] => [] | _ :: r2 => positionalTokens r2)
    else if arg = "--json" then positionalTokens rest
    else if arg = "--text" then positionalTokens rest
    else if arg = "--input" then
      (match rest with | [] => [] | _ :: r2 => positionalTokens r2)
    else if arg = "--arg" then positionalTokens rest
    else if arg = "--stdin" then positionalTokens rest
    else if arg = "--no-input" then positionalTokens rest
    else if arg = "--max-bytes" then
      (match rest with | [] => [] | _ :: r2 => positionalTokens r2)
    else if arg = "--no-content" then positionalTokens rest
    else if arg = "--content" then positionalTokens rest
    else arg :: positionalTokens rest

/-! ### Concrete instances used by individual claims -/

/-- The `RunInput` refuting C1: a template argument that is exactly the
placeholder, a non-empty prompt, and input mode `none`. -/
def c1Input : RunInput :=
  ⟨[PROMPT_TOKEN], "hi", InputMode.none, [], "--model", Option.none⟩

/-- The `RunInput` refuting C2: three passthrough tokens and a model id whose
flag is not yet present. -/
def c2Input : RunInput :=
  ⟨[], "", InputMode.auto, ["x", "y", "z"], "--model", Option.some "m"⟩

/-- The `RunInput` refuting C3: the assembled arguments already contain the
model flag twice, and a model id is supplied. -/
def c3Input : RunInput :=
  ⟨["--model", "a", "--model", "b"], "", InputMode.auto, [], "--model", Option.some "c"⟩

/-- An environment carrying an invalid agent name in the primary namespace. -/
def c5Env : String → Option String :=
  fun n => if n = "AGENT_EXEC_AGENT" then Option.some "gpt" else Option.none

/-! ## Helper lemmas -/

lemma isProbablyBinaryLoop_eq (sample : List Nat) (np total : Nat) :
    isProbablyBinaryLoop sample np total =
      (sample.contains 0 ||
        (decide (0 < total) && decide (3 * total < 10 * (np + nonPrintableCount sample)))) := by
  induction sample generalizing np with
  | nil => simp [isProbablyBinaryLoop, nonPrintableCount]
  | cons b rest ih =>
    by_cases hb : b = 0
    · subst hb
      simp [isProbablyBinaryLoop, List.contains_cons]
    · simp only [isProbablyBinaryLoop, hb, if_false, ih, List.contains_cons]
      by_cases hp : isPrintableByte b
      · simp [nonPrintableCount, hp, hb, beq_false_of_ne (Ne.symm hb)]
      · simp [nonPrintableCount, hp, hb, beq_false_of_ne (Ne.symm hb),
          Nat.add_comm, Nat.add_assoc, Nat.add_left_comm]

lemma isProbablyBinary_of_zero (data : List Nat) (h : (data.take 8000).contains 0 = true) :
    isProbablyBinary data = true := by
  unfold isProbablyBinary
  rw [isProbablyBinaryLoop_eq]
  simp only [h, Bool.true_or]

lemma positionalTokens_nil : positionalTokens [] = [] := rfl

lemma positionalTokens_cons (arg : String) (rest : List String) :
    positionalTokens (arg :: rest) =
      (if arg = "--" then []
      else if arg = "-h" || arg = "--help" then positionalTokens rest
      else if arg = "--list" then positionalTokens rest
      else if arg = "-a" || arg = "--agent" then
        (match rest with | [] => [] | _ :: r2 => positionalTokens r2)
      else if arg = "-d" || arg = "--dir" then
        (match rest with | [] => [] | _ :: r2 => positionalTokens r2)
      else if arg = "-m" || arg = "--model" || arg = "--model-id" then
        (match rest with | [] => [] | _ :: r2 => positionalTokens r2)
      else if arg = "-f" || arg = "--format" then
        (match rest with | [] => [] | _ :: r2 => positionalTokens r2)
      else if arg = "--json" then positionalTokens rest
      else if arg = "--text" then positionalTokens rest
      else if arg = "--input" then
        (match rest with | [] => [] | _ :: r2 => positionalTokens r2)
      else if arg = "--arg" then positionalTokens rest
      else if arg = "--stdin" then positionalTokens rest
      else if arg = "--no-input" then positionalTokens rest
      else if arg = "--max-bytes" then
        (match rest with | [] => [] | _ :: r2 => positionalTokens r2)
      else if arg = "--no-content" then positionalTokens rest
      else if arg = "--content" then positionalTokens rest
      else arg :: positionalTokens rest) := by
  rw [positionalTokens.eq_def]

/-- The scan loop appends exactly the spec-side positional tokens to the
accumulated positional list (and nothing once in passthrough mode). -/
lemma parseLoop_ok_positional (st : ParseState) (l : List String) :
    ∀ st', parseLoop st l = .ok st' →
      st'.positional = st.positional ++ (if st.inPassthrough then [] else positionalTokens l) := by
  induction st, l using parseLoop.induct <;> intro st' h <;> rw [parseLoop.eq_def] at h <;>
    simp_all [positionalTokens_nil, positionalTokens_cons] <;> (subst h; rfl)

/-- Every error produced by the scan loop is an invalid-agent error or the
missing-model-value error. -/
lemma parseLoop_error_shape (st : ParseState) (l : List String) :
    ∀ e, parseLoop st l = .error e →
      (∃ v, e = invalidAgentMsg v) ∨ e = "Missing value for --model." := by
  induction st, l using parseLoop.induct <;> intro e h <;> rw [parseLoop.eq_def] at h <;>
    simp_all <;> exact Or.inl ⟨_, h.symm⟩

/-- `runAgent`'s final argument list decomposes as interpolated template
arguments, passthrough, appended model pair, appended positional prompt. -/
lemma computeRunPlan_finalArgs (i : RunInput) :
    (computeRunPlan i).finalArgs =
      (interpolateArgs i.configArgs i.prompt).1 ++ i.passthrough ++
        appendedModelPair i ++ appendedPromptArg i := by
  unfold computeRunPlan baseArgsOf appendedModelPair appendedPromptArg
  by_cases hp : i.prompt = "" <;>
    cases hmode : i.inputMode <;>
      by_cases hu : (interpolateArgs i.configArgs i.prompt).2 <;>
        cases hm : i.modelId <;>
          simp [hp, hmode, hu, hm] <;> split <;> simp

/-! ## Claims -/

/-- **C6** (confirmed).  The binary classifier returns `true` iff a null byte
occurs among the first 8000 bytes, or the (non-empty) sample's count of bytes
outside the printable/whitespace set exceeds 30% of the sampled length
(`10 * count > 3 * length` is `count / length > 0.3`); an empty buffer is
classified as not binary. -/
theorem binary_classifier_characterization (buffer : List Nat) :
    isProbablyBinary buffer =
      ((buffer.take 8000).contains 0 ||
        (decide (buffer.take 8000 ≠ []) &&
          decide (3 * (buffer.take 8000).length < 10 * nonPrintableCount (buffer.take 8000)))) := by
  unfold isProbablyBinary
  rw [isProbablyBinaryLoop_eq]
  have h : (0 < (buffer.take 8000).length) ↔ buffer.take 8000 ≠ [] := List.length_pos
  simp only [Nat.zero_add, decide_eq_decide.mpr h]

/-- **C8** (confirmed).  `runAgent` resolves with exit code `0` when the
child's close event carries no code (termination by signal), and always
returns the final argument list it passed to `spawn`. -/
theorem run_agent_signal_exit_code (i : RunInput) :
    (runAgentResult i Option.none).exitCode = 0 ∧
      ∀ code : Option Int, (runAgentResult i code).args = (computeRunPlan i).finalArgs :=
  ⟨rfl, fun _ => rfl⟩

/-- **C1** (counterexample).  With input mode `none`, a non-empty prompt and
a template entry consisting of the placeholder token, the prompt text *does*
appear in the final argument list: interpolation runs before the
input-delivery mode is consulted. -/
theorem prompt_leaks_into_args_in_none_mode :
    c1Input.inputMode = InputMode.none ∧ c1Input.prompt = "hi" ∧
      (computeRunPlan c1Input).finalArgs = ["hi"] ∧
      (computeRunPlan c1Input).finalArgs.contains "hi" = true := by decide

/-- **C1** (amended).  When the input-delivery mode is `none`, the prompt is
never written to the child's standard input and never appended as an extra
argument — the final argument list is exactly the assembled base list
(interpolated template arguments, passthrough, optional model pair) — but a
template entry containing the placeholder still receives the prompt through
interpolation. -/
theorem no_prompt_delivery_in_none_mode (i : RunInput)
    (h : i.inputMode = InputMode.none) :
    (computeRunPlan i).sendPrompt = false ∧
      (computeRunPlan i).stdinMode = StdinMode.inherit ∧
      (computeRunPlan i).finalArgs = baseArgsOf i := by
  unfold computeRunPlan
  by_cases hp : i.prompt = "" <;> simp [h, hp]

theorem no_prompt_delivery_in_none_mode_witness :
    (computeRunPlan c1Input).sendPrompt = false ∧
      (computeRunPlan c1Input).stdinMode = StdinMode.inherit ∧
      (computeRunPlan c1Input).finalArgs = baseArgsOf c1Input :=
  no_prompt_delivery_in_none_mode c1Input (by decide)

/-- **C2** (counterexample).  With passthrough tokens `x y z` and a model id,
the model flag/value pair is appended *after* the passthrough tokens, so the
passthrough tokens are not at the end of the final argument list. -/
theorem passthrough_not_after_model_pair :
    (computeRunPlan c2Input).finalArgs = ["x", "y", "z", "--model", "m"] ∧
      (["x", "y", "z"].isSuffixOf (computeRunPlan c2Input).finalArgs) = false := by decide

/-- **C2** (amended).  The final argument list always decomposes as the
interpolated template arguments, then the passthrough tokens verbatim and in
order, then the appended model flag/value pair (if any), then the positionally
delivered prompt (if any): passthrough tokens come immediately after the
template-interpolated arguments and *before* any appended model pair. -/
theorem final_args_decomposition (i : RunInput) :
    (computeRunPlan i).finalArgs =
      (interpolateArgs i.configArgs i.prompt).1 ++ i.passthrough ++
        appendedModelPair i ++ appendedPromptArg i :=
  computeRunPlan_finalArgs i

/-- **C3** (counterexample).  When the assembled argument list already
contains the model flag twice, the final list contains it twice, not exactly
once (though no further pair is appended). -/
theorem model_flag_twice_in_final_args :
    c3Input.modelId = Option.some "c" ∧
      hasFlag ((interpolateArgs c3Input.configArgs c3Input.prompt).1 ++ c3Input.passthrough)
        c3Input.modelFlag = true ∧
      (computeRunPlan c3Input).finalArgs.count "--model" = 2 := by decide

/-- **C3** (amended).  If a model id is supplied and the assembled argument
list (interpolated template plus passthrough) already contains the model flag
— exact token or `flag=value` prefix — then no flag/value pair is appended:
the final list is the assembled list, at most extended by the positionally
delivered prompt, and it still contains the flag. -/
theorem no_model_pair_appended_when_flag_present (i : RunInput) (m : String)
    (hm : i.modelId = Option.some m)
    (hf : hasFlag ((interpolateArgs i.configArgs i.prompt).1 ++ i.passthrough) i.modelFlag
      = true) :
    (computeRunPlan i).finalArgs =
      (interpolateArgs i.configArgs i.prompt).1 ++ i.passthrough ++ appendedPromptArg i ∧
      hasFlag (computeRunPlan i).finalArgs i.modelFlag = true := by
  have hbase : baseArgsOf i = (interpolateArgs i.configArgs i.prompt).1 ++ i.passthrough := by
    unfold baseArgsOf
    simp [hm, hf]
  have hpair : appendedModelPair i = [] := by
    unfold appendedModelPair
    simp [hm, hf]
  have hfinal := computeRunPlan_finalArgs i
  constructor
  · rw [hfinal, hpair]
    simp
  · rw [hfinal, hpair]
    unfold hasFlag at hf ⊢
    simp only [List.any_append] at hf ⊢
    simp [hf]

theorem no_model_pair_appended_when_flag_present_witness :
    (computeRunPlan c3Input).finalArgs =
      (interpolateArgs c3Input.configArgs c3Input.prompt).1 ++ c3Input.passthrough ++
        appendedPromptArg c3Input ∧
      hasFlag (computeRunPlan c3Input).finalArgs c3Input.modelFlag = true :=
  no_model_pair_appended_when_flag_present c3Input "c" (by decide) (by decide)

/-- **C4** (counterexample).  A changed file consisting of a single null byte
is smaller than the byte cap, yet its record carries no content at all: the
binary classification takes precedence over the small-file branch. -/
theorem small_binary_file_has_no_content :
    ([0] : List Nat).length < 100 ∧
      (enrichChange ⟨"f", "M", Option.none, Option.none, Option.none⟩ [0] 100).content
        = Option.none ∧
      (enrichChange ⟨"f", "M", Option.none, Option.none, Option.none⟩ [0] 100).binary
        = Option.some true := by decide

/-- **C4** (amended).  For a successfully read changed file, with the
binary-classification guard made explicit: if the file is not classified
binary and is smaller than the byte cap, the record carries the full content
and no truncation flag; if it is not classified binary and larger than the
cap, the record carries exactly `cap` bytes and the truncation flag; if the
sampled prefix contains a null byte, the record has no content field; and
recorded content never exceeds the cap. -/
theorem content_cap_invariant (p s : String) (data : List Nat) (cap : Nat) :
    (isProbablyBinary data = false → data.length < cap →
        (enrichChange ⟨p, s, Option.none, Option.none, Option.none⟩ data cap).content
            = Option.some data ∧
          (enrichChange ⟨p, s, Option.none, Option.none, Option.none⟩ data cap).truncated
            = Option.none) ∧
    (isProbablyBinary data = false → data.length > cap →
        (enrichChange ⟨p, s, Option.none, Option.none, Option.none⟩ data cap).content
            = Option.some (data.take cap) ∧
          (data.take cap).length = cap ∧
          (enrichChange ⟨p, s, Option.none, Option.none, Option.none⟩ data cap).truncated
            = Option.some true) ∧
    ((data.take 8000).contains 0 = true →
        (enrichChange ⟨p, s, Option.none, Option.none, Option.none⟩ data cap).content
          = Option.none) ∧
    (∀ bs,
        (enrichChange ⟨p, s, Option.none, Option.none, Option.none⟩ data cap).content
            = Option.some bs →
          bs.length ≤ cap) := by
  refine ⟨?_, ?_, ?_, ?_⟩
  · intro hb hlt
    unfold enrichChange
    simp [hb, Nat.not_lt.mpr (Nat.le_of_lt hlt), Nat.not_lt_of_lt hlt]
  · intro hb hgt
    unfold enrichChange
    simp [hb, hgt, Nat.min_eq_left (Nat.le_of_lt hgt)]
  · intro hz
    unfold enrichChange
    simp [isProbablyBinary_of_zero data hz]
  · intro bs hbs
    unfold enrichChange at hbs
    by_cases hb : isProbablyBinary data
    · simp [hb] at hbs
    · by_cases hgt : data.length > cap
      · simp [hb, hgt] at hbs
        subst hbs
        simp
      · simp [hb, hgt] at hbs
        subst hbs
        exact Nat.not_lt.mp hgt

theorem content_cap_invariant_witness :
    (enrichChange ⟨"f", "M", Option.none, Option.none, Option.none⟩ [65] 2).content
        = Option.some [65] ∧
      (enrichChange ⟨"f", "M", Option.none, Option.none, Option.none⟩ [65, 66, 67] 2).content
        = Option.some [65, 66] ∧
      ([65, 66] : List Nat).length = 2 ∧
      (enrichChange ⟨"f", "M", Option.none, Option.none, Option.none⟩ [0, 65] 2).content
        = Option.none ∧
      ([65] : List Nat).length ≤ 2 := by
  refine ⟨((content_cap_invariant "f" "M" [65] 2).1 (by decide) (by decide)).1, ?_, ?_, ?_, ?_⟩
  · exact ((content_cap_invariant "f" "M" [65, 66, 67] 2).2.1 (by decide) (by decide)).1
  · exact ((content_cap_invariant "f" "M" [65, 66, 67] 2).2.1 (by decide) (by decide)).2.1
  · exact (content_cap_invariant "f" "M" [0, 65] 2).2.2.1 (by decide)
  · exact (content_cap_invariant "f" "M" [65] 2).2.2.2 [65]
      (((content_cap_invariant "f" "M" [65] 2).1 (by decide) (by decide)).1)

/-- **C7** (confirmed).  When the version-control status query exits
non-zero, change collection returns the empty list (no error is raised: the
embedding is total), and the structured record's `ok` field is determined
solely by the agent process's exit code. -/
theorem nonrepo_dir_empty_changes (statusExit : Int) (stdout : String)
    (readFile : String → Option (List Nat)) (maxBytes : Nat) (includeContent : Bool)
    (agent : AgentName) (model : Option String) (command cwd : String)
    (args : List String) (agentExit : Int)
    (h : statusExit ≠ 0) :
    getGitChanges statusExit stdout readFile maxBytes includeContent = [] ∧
      (buildOutput agent model command args cwd
          agentExit (getGitChanges statusExit stdout readFile maxBytes includeContent)).ok
        = decide (agentExit = 0) ∧
      (buildOutput agent model command args cwd
          agentExit (getGitChanges statusExit stdout readFile maxBytes includeContent)).changes
        = [] := by
  have hempty : getGitChanges statusExit stdout readFile maxBytes includeContent = [] := by
    unfold getGitChanges
    simp [h]
  exact ⟨hempty, rfl, by simp [hempty, buildOutput]⟩

theorem nonrepo_dir_empty_changes_witness :
    getGitChanges 128 " M a.txt\n" (fun _ => Option.none) 100 true = [] ∧
      (buildOutput AgentName.codex Option.none "codex" ["--model", "m"] "/w"
          3 (getGitChanges 128 " M a.txt\n" (fun _ => Option.none) 100 true)).ok
        = decide ((3 : Int) = 0) ∧
      (buildOutput AgentName.codex Option.none "codex" ["--model", "m"] "/w"
          3 (getGitChanges 128 " M a.txt\n" (fun _ => Option.none) 100 true)).changes
        = [] :=
  nonrepo_dir_empty_changes 128 " M a.txt\n" (fun _ => Option.none) 100 true
    AgentName.codex Option.none "codex" "/w" ["--model", "m"] 3 (by decide)

/-- **C5** (counterexample).  A *flag-supplied* agent value outside the
enumerated set does raise a thrown error at the resolution stage, contrary to
the claim that resolution never throws for both environment- and
flag-supplied values. -/
theorem flag_invalid_agent_raises :
    parseArgsE (fun _ => Option.none) "/w" ["--agent", "gpt"] =
      .error "Invalid agent: gpt. Use codex, claude, or cursor." := by decide

/-- **C5** (amended).  An agent identifier outside `{codex, claude, cursor}`
resolves to the unselected (`none`) agent without error when supplied through
the environment; when supplied through the `--agent` flag it instead raises
the invalid-agent parse error. -/
theorem invalid_agent_resolution (env : String → Option String) (cwd s : String)
    (hs : s ∉ (["codex", "claude", "cursor"] : List String))
    (he : getEnvValue env "AGENT" = Option.some s) :
    (initialOptions env cwd).agent = Option.none ∧
      parseArgsE env cwd [] = .ok ⟨initialOptions env cwd, "", []⟩ ∧
      parseArgsE env cwd ["--agent", s] = .error (invalidAgentMsg (Option.some s)) := by
  simp only [List.mem_cons, List.mem_singleton, not_or] at hs
  obtain ⟨h1, h2, h3, -⟩ := hs
  have hn : normalizeAgent (Option.some s) = Option.none := by
    unfold normalizeAgent
    split <;> simp_all
  refine ⟨?_, rfl, ?_⟩
  · unfold initialOptions
    rw [he, hn]
  · unfold parseArgsE parseLoop
    simp [hn, Except.map]

theorem invalid_agent_resolution_witness :
    (initialOptions c5Env "/w").agent = Option.none ∧
      parseArgsE c5Env "/w" [] = .ok ⟨initialOptions c5Env "/w", "", []⟩ ∧
      parseArgsE c5Env "/w" ["--agent", "gpt"] = .error (invalidAgentMsg (Option.some "gpt")) :=
  invalid_agent_resolution c5Env "/w" "gpt" (by decide) (by decide)

/-- **C9** (confirmed).  On every successful parse, the prompt is the
space-joined, whitespace-trimmed concatenation of the positional (non-flag)
tokens of the invocation, in order. -/
theorem prompt_is_joined_positionals (env : String → Option String) (cwd : String)
    (argv : List String) (r : ParseResult) (h : parseArgsE env cwd argv = .ok r) :
    r.prompt = jsTrim (String.intercalate " " (positionalTokens argv)) := by
  unfold parseArgsE at h
  cases hl : parseLoop ⟨initialOptions env cwd, [], [], false⟩ argv with
  | error e => rw [hl] at h; simp [Except.map] at h
  | ok st =>
    rw [hl] at h
    simp only [Except.map] at h
    have hp := parseLoop_ok_positional _ _ _ hl
    simp only [if_neg Bool.false_ne_true, List.nil_append] at hp
    cases h
    simp [hp]

theorem prompt_is_joined_positionals_witness :
    (⟨{ initialOptions (fun _ => Option.none) "/w" with format := OutputFormat.json },
        "hello world", []⟩ : ParseResult).prompt =
      jsTrim (String.intercalate " " (positionalTokens ["hello", "-f", "json", "world"])) :=
  prompt_is_joined_positionals (fun _ => Option.none) "/w" ["hello", "-f", "json", "world"]
    _ (by decide)

/-- **C10** (confirmed).  Argument parsing raises only the invalid-agent
error and the missing-model-value error (the latter is also raised when the
token following the model flag is the empty string, which the source treats
as missing); a missing or unrecognized value after `--format`, `--input` or
`--max-bytes` silently falls back to that option's built-in default; and a
missing value after `--dir` is accepted without a parse-time error (the
directory becomes undefined). -/
theorem parse_error_and_fallback_discipline :
    (∀ (st : ParseState) (l : List String) (e : String), parseLoop st l = .error e →
        (∃ v, e = invalidAgentMsg v) ∨ e = "Missing value for --model.") ∧
      (∀ v : Option String, v ≠ Option.some "json" → v ≠ Option.some "text" →
        normalizeFormat v = DEFAULT_FORMAT) ∧
      (∀ v : Option String, v ≠ Option.some "auto" → v ≠ Option.some "arg" →
        v ≠ Option.some "stdin" → v ≠ Option.some "none" →
        normalizeInput v = DEFAULT_INPUT) ∧
      (normalizeMaxBytes Option.none = DEFAULT_MAX_BYTES) ∧
      (∀ s, jsNumber (Option.some s) = Option.none →
        normalizeMaxBytes (Option.some s) = DEFAULT_MAX_BYTES) ∧
      (∀ s q, jsNumber (Option.some s) = Option.some q → ¬0 < q.num →
        normalizeMaxBytes (Option.some s) = DEFAULT_MAX_BYTES) ∧
      (∀ st : ParseState, st.inPassthrough = false →
        parseLoop st ["--dir"] = .ok { st with opts.dir := Option.none }) ∧
      (∀ st : ParseState, st.inPassthrough = false →
        parseLoop st ["--format"] = .ok { st with opts.format := normalizeFormat Option.none }) ∧
      (∀ st : ParseState, st.inPassthrough = false →
        parseLoop st ["--input"] = .ok { st with opts.input := normalizeInput Option.none }) ∧
      (∀ st : ParseState, st.inPassthrough = false →
        parseLoop st ["--max-bytes"]
          = .ok { st with opts.maxBytes := normalizeMaxBytes Option.none }) ∧
      (∀ (st : ParseState) (v : String) (rest : List String), st.inPassthrough = false →
        parseLoop st ("--format" :: v :: rest)
          = parseLoop { st with opts.format := normalizeFormat (Option.some v) } rest) ∧
      (∀ (st : ParseState) (v : String) (rest : List String), st.inPassthrough = false →
        parseLoop st ("--input" :: v :: rest)
          = parseLoop { st with opts.input := normalizeInput (Option.some v) } rest) ∧
      (∀ (st : ParseState) (v : String) (rest : List String), st.inPassthrough = false →
        parseLoop st ("--max-bytes" :: v :: rest)
          = parseLoop { st with opts.maxBytes := normalizeMaxBytes (Option.some v) } rest) := by
  refine ⟨parseLoop_error_shape, ?_, ?_, rfl, ?_, ?_, ?_, ?_, ?_, ?_, ?_, ?_, ?_⟩
  · intro v h1 h2
    unfold normalizeFormat
    split <;> simp_all
  · intro v h1 h2 h3 h4
    unfold normalizeInput
    split <;> simp_all
  · intro s h
    unfold jsNumber at h
    unfold normalizeMaxBytes jsNumber
    rw [h]
  · intro s q h hq
    unfold jsNumber at h
    unfold normalizeMaxBytes jsNumber
    rw [h]
    simp [hq]
  · intro st h
    rw [parseLoop.eq_def]
    simp [h]
  · intro st h
    rw [parseLoop.eq_def]
    simp [h]
  · intro st h
    rw [parseLoop.eq_def]
    simp [h]
  · intro st h
    rw [parseLoop.eq_def]
    simp [h]
  · intro st v rest h
    rw [parseLoop.eq_def]
    simp [h]
  · intro st v rest h
    rw [parseLoop.eq_def]
    simp [h]
  · intro st v rest h
    rw [parseLoop.eq_def]
    simp [h]

theorem parse_error_and_fallback_discipline_witness :
    ((∃ v, "Invalid agent: gpt. Use codex, claude, or cursor." = invalidAgentMsg v) ∨
        "Invalid agent: gpt. Use codex, claude, or cursor." = "Missing value for --model.") ∧
      normalizeFormat (Option.some "bogus") = DEFAULT_FORMAT ∧
      normalizeInput (Option.some "bogus") = DEFAULT_INPUT ∧
      normalizeMaxBytes (Option.some "bogus") = DEFAULT_MAX_BYTES ∧
      normalizeMaxBytes (Option.some "-3") = DEFAULT_MAX_BYTES ∧
      parseLoop ⟨initialOptions (fun _ => Option.none) "/w", [], [], false⟩ ["--dir"]
        = .ok ⟨{ initialOptions (fun _ => Option.none) "/w" with dir := Option.none }, [], [], false⟩ ∧
      parseLoop ⟨initialOptions (fun _ => Option.none) "/w", [], [], false⟩ ["--format", "bogus", "p"]
        = parseLoop
            ⟨{ initialOptions (fun _ => Option.none) "/w" with format := normalizeFormat (Option.some "bogus") },
              [], [], false⟩ ["p"] := by
  have h := parse_error_and_fallback_discipline
  refine ⟨?_, ?_, ?_, ?_, ?_, ?_, ?_⟩
  · exact h.1 ⟨initialOptions (fun _ => Option.none) "/w", [], [], false⟩ ["--agent", "gpt"]
      "Invalid agent: gpt. Use codex, claude, or cursor." (by decide)
  · exact h.2.1 (Option.some "bogus") (by decide) (by decide)
  · exact h.2.2.1 (Option.some "bogus") (by decide) (by decide) (by decide) (by decide)
  · exact h.2.2.2.2.1 "bogus" (by decide)
  · exact h.2.2.2.2.2.1 "-3" (mkRat (-3) 1) (by decide) (by decide)
  · exact h.2.2.2.2.2.2.1 ⟨initialOptions (fun _ => Option.none) "/w", [], [], false⟩ rfl
  · exact h.2.2.2.2.2.2.2.2.2.2.1 ⟨initialOptions (fun _ => Option.none) "/w", [], [], false⟩
      "bogus" ["p"] rfl

end AgentExec
